import Mathlib

/-!
Verification of the Kaleidoscope front end (lexer, parser, codegen dispatcher)
against its specification.  The definitions below are a shallow embedding of
the C++ sources `src/lexer.cpp`, `src/parser.cpp`, `src/ast.cpp`:

* characters are read from an explicit `List Char` (the C code reads stdin via
  `getchar()`, with `EOF` modelled by the `CChar.eof` constructor);
* the lexer global `last_char` is threaded explicitly as a `CChar` value;
* the numeric payload of a number token is kept as the scanned literal string
  `num_str` (the source stores `strtod(num_str)`, a `double`; the float
  conversion is foreign to the front end and is kept abstract by retaining
  the exact string the lexer scanned);
* the parser's one-token lookahead `cur_tok` is the head of a `List Tok`
  (an exhausted stream keeps yielding `tok_eof`, as repeated `gettok()` at
  EOF does);
* recursion in the parser and the token-stream driver is bounded by an
  explicit fuel parameter so that every definition is a computable total
  function; theorems quantify over sufficient fuel, concrete examples use a
  concrete ample fuel;
* the codegen globals (`g_module`, `g_named_values` and the stderr stream
  written by `log_error_v`) form an explicit `CodegenState` record that every
  codegen function threads through.
-/

namespace Kal

/-- Model of the C character classifier `isspace` (C locale). -/
def isspace (c : Char) : Bool :=
  c = ' ' || c = '\t' || c = '\n' || c = '\x0b' || c = '\x0c' || c = '\x0d'

/-- Model of the C character classifier `isalpha` (C locale). -/
def isalpha (c : Char) : Bool :=
  ('a' ≤ c && c ≤ 'z') || ('A' ≤ c && c ≤ 'Z')

/-- Model of the C character classifier `isdigit`. -/
def isdigit (c : Char) : Bool :=
  '0' ≤ c && c ≤ '9'

/-- Model of the C character classifier `isalnum`. -/
def isalnum (c : Char) : Bool :=
  isalpha c || isdigit c

/-- A character as returned by `getchar()`: either a real character or EOF. -/
inductive CChar where
  | eof : CChar
  | ch (c : Char) : CChar
deriving DecidableEq, Repr

/-- Model of `getchar()` on an explicit input stream. -/
def getchar : List Char → CChar × List Char
  | [] => (CChar.eof, [])
  | c :: cs => (CChar.ch c, cs)

/-- Tokens produced by `gettok` (`src/lexer.cpp`).  The C function returns an
`int` that is either a negative `Token` enum value or the ASCII value of a
character; the latter is the `sym` constructor.  The globals `identifier_str`
and `num_val` are carried as constructor payloads.  `tok_ext` renders the
source's token for the second reserved word (`Token` enum value `-3`). -/
inductive Tok where
  | tok_eof : Tok
  | tok_def : Tok
  | tok_ext : Tok
  | tok_identifier (s : String) : Tok
  | tok_number (num_str : String) : Tok
  | sym (c : Char) : Tok
deriving DecidableEq, Repr

/-- Whitespace-skipping loop at the top of `gettok`:
`while (isspace(last_char)) last_char = getchar();`. -/
def skip_ws (lc : CChar) : List Char → CChar × List Char
  | [] =>
    match lc with
    | CChar.eof => (CChar.eof, [])
    | CChar.ch c => if isspace c then (CChar.eof, []) else (CChar.ch c, [])
  | x :: xs =>
    match lc with
    | CChar.eof => (CChar.eof, x :: xs)
    | CChar.ch c => if isspace c then skip_ws (CChar.ch x) xs else (CChar.ch c, x :: xs)

/-- Identifier scanning loop of `gettok`:
`while (isalnum((last_char = getchar()))) identifier_str += last_char;`. -/
def scan_ident (acc : String) : List Char → String × CChar × List Char
  | [] => (acc, CChar.eof, [])
  | c :: cs => if isalnum c then scan_ident (acc.push c) cs else (acc, CChar.ch c, cs)

/-- Number scanning loop of `gettok`:
`do { num_str += last_char; last_char = getchar(); } while (isdigit || '.');`.
`lc` is the current `last_char`, already known to be a digit or `'.'`
(or appended unconditionally by the do-while body). -/
def scan_num (acc : String) (lc : Char) : List Char → String × CChar × List Char
  | [] => (acc.push lc, CChar.eof, [])
  | c :: cs =>
    if isdigit c || c = '.' then scan_num (acc.push lc) c cs
    else (acc.push lc, CChar.ch c, cs)

/-- Comment-skipping loop of `gettok`:
`do { last_char = getchar(); } while (last_char != EOF && last_char != '\n' && last_char != '\r');`. -/
def skip_comment : List Char → CChar × List Char
  | [] => (CChar.eof, [])
  | c :: cs => if c = '\n' || c = '\r' then (CChar.ch c, cs) else skip_comment cs

/-- One call of `gettok` (`src/lexer.cpp`, lines 16-90).  The `fuel` parameter
bounds the self-recursion performed after a comment (`return gettok();`); one
unit of fuel per comment line suffices, and `gettok` below supplies
`input.length + 1`, which is always enough because the comment loop consumes
at least one input character before the recursive call.  Returns the token
together with the updated `last_char` pushback and remaining input. -/
def gettok_fuel : Nat → CChar → List Char → Tok × CChar × List Char
  | 0, lc, input => (Tok.tok_eof, lc, input)
  | fuel + 1, lc, input =>
    match skip_ws lc input with
    | (CChar.eof, rest) =>
      -- Falls through every classifier to `if (last_char == EOF) return tok_eof;`.
      (Tok.tok_eof, CChar.eof, rest)
    | (CChar.ch c, rest) =>
      if isalpha c then
        match scan_ident (String.singleton c) rest with
        | (s, lc2, rest2) =>
          if s = "def" then (Tok.tok_def, lc2, rest2)
          else if s = "extern" then (Tok.tok_ext, lc2, rest2)
          else (Tok.tok_identifier s, lc2, rest2)
      else if isdigit c || c = '.' then
        match scan_num "" c rest with
        | (s, lc2, rest2) => (Tok.tok_number s, lc2, rest2)
      else if c = '#' then
        match skip_comment rest with
        | (CChar.eof, rest2) => (Tok.tok_eof, CChar.eof, rest2)
        | (CChar.ch c2, rest2) => gettok_fuel fuel (CChar.ch c2) rest2
      else
        -- `int this_char = last_char; last_char = getchar(); return this_char;`
        match getchar rest with
        | (lc2, rest2) => (Tok.sym c, lc2, rest2)

/-- `gettok` with enough fuel for any input. -/
def gettok (lc : CChar) (input : List Char) : Tok × CChar × List Char :=
  gettok_fuel (input.length + 1) lc input

/-- Driver repeatedly calling `gettok` until `tok_eof`, collecting the token
stream (the parser's `get_next_token` performs exactly one such call).  The
initial `last_char` is `' '` as in the C static initializer. -/
def tokens_fuel : Nat → CChar → List Char → List Tok
  | 0, _, _ => []
  | fuel + 1, lc, input =>
    match gettok lc input with
    | (Tok.tok_eof, _, _) => [Tok.tok_eof]
    | (t, lc2, rest) => t :: tokens_fuel fuel lc2 rest

/-- The full token stream of a source string. -/
def tokenize (s : String) : List Tok :=
  tokens_fuel (s.length + 1) (CChar.ch ' ') s.toList

/-! ## Parser (`src/parser.cpp`)

The parser state is the token stream whose head is `cur_tok`; `cur` reads the
lookahead and `adv` models `get_next_token()` (an exhausted stream keeps
yielding `tok_eof`, as the lexer does at EOF).  Each parse function returns
the `std::unique_ptr` result as an `Option` (null = `none`) together with the
stream position after it returns; a failure does not roll back consumed
tokens, exactly as in the source.  The `log_error` diagnostics of the parser
only print to stderr and are not otherwise observable, so they are not
modelled here (the codegen error log, which the claims do observe, is
modelled below). -/

/-- The current lookahead token `cur_tok`. -/
def cur (ts : List Tok) : Tok := ts.headD Tok.tok_eof

/-- `get_next_token()`: advance the stream by one token. -/
def adv (ts : List Tok) : List Tok := ts.tail

/-- The precedence table `binop_precedence` installed by `parse()`:
`'<'→10, '+'→20, '-'→30, '*'→40`.  Any other key yields the `std::map`
default-inserted value `0`. -/
def binop_precedence (c : Char) : Int :=
  if c = '<' then 10
  else if c = '+' then 20
  else if c = '-' then 30
  else if c = '*' then 40
  else 0

/-- `get_tok_precedence()`: `-1` for any token that is not a declared binary
operator (non-ASCII/negative token codes, and characters mapped to `≤ 0`). -/
def get_tok_precedence : Tok → Int
  | Tok.sym c => if binop_precedence c ≤ 0 then -1 else binop_precedence c
  | _ => -1

/-- The expression AST (`src/ast.hpp`): `NumberExprAST`, `VariableExprAST`,
`BinaryExprAST`, `CallExprAST`.  The numeric payload is the scanned literal
string (see the header comment). -/
inductive ExprAST where
  | NumberExprAST (val : String) : ExprAST
  | VariableExprAST (name : String) : ExprAST
  | BinaryExprAST (op : Char) (lhs rhs : ExprAST) : ExprAST
  | CallExprAST (callee : String) (args : List ExprAST) : ExprAST

/-- `PrototypeAST`: function name and ordered parameter names. -/
structure PrototypeAST where
  name : String
  args : List String

/-- `FunctionAST`: a prototype together with the single body expression. -/
structure FunctionAST where
  proto : PrototypeAST
  body : ExprAST

/-- `parse_number_expr`: build `NumberExprAST(num_val)` and consume the
number token.  (Only ever invoked with `cur_tok = tok_number`.) -/
def parse_number_expr (ts : List Tok) : Option ExprAST × List Tok :=
  match ts with
  | Tok.tok_number v :: ts1 => (some (ExprAST.NumberExprAST v), ts1)
  | _ => (none, ts)

mutual

/-- `parse_identifier_expr`: a lone identifier is a `VariableExprAST`; an
identifier followed by `'('` is a `CallExprAST` with comma-separated
arguments.  (Only ever invoked with `cur_tok = tok_identifier`.) -/
def parse_identifier_expr (fuel : Nat) (ts : List Tok) : Option ExprAST × List Tok :=
  match fuel with
  | 0 => (none, ts)
  | fuel + 1 =>
    match ts with
    | Tok.tok_identifier id_name :: ts1 =>
      -- get_next_token() consumed the identifier; ts1's head is the lookahead.
      if cur ts1 ≠ Tok.sym '(' then
        (some (ExprAST.VariableExprAST id_name), ts1)
      else
        let ts2 := adv ts1  -- consume the opening paren
        if cur ts2 = Tok.sym ')' then
          (some (ExprAST.CallExprAST id_name []), adv ts2)
        else
          match parse_call_args fuel [] ts2 with
          | (none, ts3) => (none, ts3)
          | (some args, ts3) =>
            -- loop broke at `')'`; consume the closing paren
            (some (ExprAST.CallExprAST id_name args), adv ts3)
    | _ => (none, ts)

/-- The `for (;;)` argument-collection loop inside `parse_identifier_expr`:
parse an expression, then break on `')'`, error unless `','`, else consume
the comma and continue. -/
def parse_call_args (fuel : Nat) (acc : List ExprAST) (ts : List Tok) :
    Option (List ExprAST) × List Tok :=
  match fuel with
  | 0 => (none, ts)
  | fuel + 1 =>
    match parse_expression fuel ts with
    | (none, ts1) => (none, ts1)
    | (some arg, ts1) =>
      if cur ts1 = Tok.sym ')' then (some (acc ++ [arg]), ts1)
      else if cur ts1 ≠ Tok.sym ',' then (none, ts1)  -- "Expected ')' or ',' in arg list"
      else parse_call_args fuel (acc ++ [arg]) (adv ts1)

/-- `parse_primary`: dispatch on the lookahead token; any token other than an
identifier, a number or `'('` is the "Unknown token when expecting an
expression" error. -/
def parse_primary (fuel : Nat) (ts : List Tok) : Option ExprAST × List Tok :=
  match fuel with
  | 0 => (none, ts)
  | fuel + 1 =>
    match cur ts with
    | Tok.tok_identifier _ => parse_identifier_expr fuel ts
    | Tok.tok_number _ => parse_number_expr ts
    | Tok.sym '(' => parse_paren_expr fuel ts
    | _ => (none, ts)

/-- `parse_expression`: `primary binop_rhs(0)`. -/
def parse_expression (fuel : Nat) (ts : List Tok) : Option ExprAST × List Tok :=
  match fuel with
  | 0 => (none, ts)
  | fuel + 1 =>
    match parse_primary fuel ts with
    | (none, ts1) => (none, ts1)
    | (some lhs, ts1) => parse_binop_rhs fuel 0 lhs ts1

/-- `parse_binop_rhs` (`src/parser.cpp`, lines 181-230), precedence climbing.
The `for (;;)` loop is rendered as tail recursion (each loop iteration and
each genuine recursive call costs one unit of fuel).  In the source the
operator is read from the raw `cur_tok` int; it can only have precedence
`≥ expr_prec ≥ 0` when it is a `sym` token, so the catch-all arm below is
unreachable for the `expr_prec` values the parser uses (`0` and
`tok_prec + 1` with `tok_prec > 0`). -/
def parse_binop_rhs (fuel : Nat) (expr_prec : Int) (lhs : ExprAST) (ts : List Tok) :
    Option ExprAST × List Tok :=
  match fuel with
  | 0 => (none, ts)
  | fuel + 1 =>
    let tok_prec := get_tok_precedence (cur ts)
    if tok_prec < expr_prec then
      (some lhs, ts)
    else
      match cur ts with
      | Tok.sym binop =>
        let ts1 := adv ts  -- consume the operator
        match parse_primary fuel ts1 with
        | (none, ts2) => (none, ts2)
        | (some rhs, ts2) =>
          let next_prec := get_tok_precedence (cur ts2)
          if tok_prec < next_prec then
            match parse_binop_rhs fuel (tok_prec + 1) rhs ts2 with
            | (none, ts3) => (none, ts3)
            | (some rhs2, ts3) =>
              parse_binop_rhs fuel expr_prec (ExprAST.BinaryExprAST binop lhs rhs2) ts3
          else
            parse_binop_rhs fuel expr_prec (ExprAST.BinaryExprAST binop lhs rhs) ts2
      | _ => (none, ts)

/-- `parse_paren_expr`: consume `'('`, parse the inner expression, require and
consume `')'`, and return the inner expression itself. -/
def parse_paren_expr (fuel : Nat) (ts : List Tok) : Option ExprAST × List Tok :=
  match fuel with
  | 0 => (none, ts)
  | fuel + 1 =>
    let ts1 := adv ts  -- consume the opening paren
    match parse_expression fuel ts1 with
    | (none, ts2) => (none, ts2)
    | (some v, ts2) =>
      if cur ts2 ≠ Tok.sym ')' then (none, ts2)  -- "expected ')'"
      else (some v, adv ts2)

end

/-- The parameter-name collection loop of `parse_prototype`:
`while (get_next_token() == tok_identifier) arg_names.push_back(identifier_str);`
The stream argument's head is the token before the first `get_next_token()`. -/
def parse_proto_args : List Tok → List String × List Tok
  | _ :: Tok.tok_identifier s :: rest =>
    match parse_proto_args (Tok.tok_identifier s :: rest) with
    | (ns, ts2) => (s :: ns, ts2)
  | _ :: rest => ([], rest)
  | [] => ([], [])

/-- `parse_prototype`: `identifier '(' identifier* ')'`. -/
def parse_prototype (ts : List Tok) : Option PrototypeAST × List Tok :=
  match ts with
  | Tok.tok_identifier func_name :: ts1 =>
    if cur ts1 ≠ Tok.sym '(' then (none, ts1)  -- "Expected '(' in prototype"
    else
      match parse_proto_args ts1 with
      | (arg_names, ts2) =>
        if cur ts2 ≠ Tok.sym ')' then (none, ts2)  -- "Expected ')' in prototype"
        else (some ⟨func_name, arg_names⟩, adv ts2)
  | _ => (none, ts)  -- "Expected function name in prototype"

/-- `parse_definition`: `'def' prototype expression`. -/
def parse_definition (fuel : Nat) (ts : List Tok) : Option FunctionAST × List Tok :=
  let ts1 := adv ts  -- eat the 'def' keyword
  match parse_prototype ts1 with
  | (none, ts2) => (none, ts2)
  | (some proto, ts2) =>
    match parse_expression fuel ts2 with
    | (none, ts3) => (none, ts3)
    | (some body, ts3) => (some ⟨proto, body⟩, ts3)

/-! ## Codegen dispatcher (`src/ast.cpp`)

The LLVM backend is modelled by an explicit state record.  A backend value is
the tree of construction calls that produced it (`ConstantFP`, argument
handles, `CreateFAdd`/`FSub`/`FMul`, `CreateFCmpULT`, `CreateUIToFP`,
`CreateCall`).  A module function records its name, the names given to its
argument handles by `PrototypeAST::codegen`, and its body — `none` while the
function is a bodiless declaration (`llvm::Function::empty()`), `some v`
once `FunctionAST::codegen` has emitted `CreateRet(v)`.  `log_error_v`
appends its message to the modelled stderr stream. -/

/-- A backend IR value, identified by the construction calls that built it. -/
inductive Value where
  | constFP (val : String) : Value
  | arg (fn : String) (idx : Nat) : Value
  | fadd (l r : Value) : Value
  | fsub (l r : Value) : Value
  | fmul (l r : Value) : Value
  | fcmpULT (l r : Value) : Value
  | uitofp (v : Value) : Value
  | call (callee : String) (args : List Value) : Value

/-- A function in `g_module`: name, argument-handle names, and body
(`none` ⇔ `llvm::Function::empty()`). -/
structure IRFunction where
  name : String
  args : List String
  body : Option Value

/-- The codegen globals of `src/ast.cpp`: the module's function list
(`g_module`), the per-function parameter bindings (`g_named_values`, an
association list with unique keys mirroring `std::map<std::string,
llvm::Value*>`; a stored `none` is a null pointer entry), and the stderr
messages printed by `log_error_v`. -/
structure CodegenState where
  g_module : List IRFunction
  g_named_values : List (String × Option Value)
  g_errors : List String

/-- `log_error_v`: print the message to stderr (the value result `nullptr`
is paired in at each call site). -/
def log_error_v (msg : String) (s : CodegenState) : CodegenState :=
  { s with g_errors := s.g_errors ++ [msg] }

/-- `g_module->getFunction(name)`: look up a function by name. -/
def getFunction (m : List IRFunction) (nm : String) : Option IRFunction :=
  m.find? (fun f => f.name = nm)

/-- `the_func->eraseFromParent()`: remove the named function from the module. -/
def eraseFunction : List IRFunction → String → List IRFunction
  | [], _ => []
  | f :: rest, nm => if f.name = nm then rest else f :: eraseFunction rest nm

/-- Finalizing a function: record the `CreateRet` value as its body in the
module (the C++ mutates the function object the module owns in place). -/
def setFunctionBody : List IRFunction → String → Value → List IRFunction
  | [], _, _ => []
  | f :: rest, nm, v =>
    if f.name = nm then { f with body := some v } :: rest
    else f :: setFunctionBody rest nm v

/-- `std::map::operator[]` read access: returns the stored value, and
default-inserts a null entry when the key is absent (so the returned value is
`none` both for an absent key and for a stored null pointer). -/
def map_access : List (String × Option Value) → String → Option Value × List (String × Option Value)
  | [], k => (none, [(k, none)])
  | (k1, v) :: rest, k =>
    if k1 = k then (v, (k1, v) :: rest)
    else
      match map_access rest k with
      | (r, rest2) => (r, (k1, v) :: rest2)

/-- `std::map::operator[] = v` write access: overwrite or insert. -/
def map_insert : List (String × Option Value) → String → Option Value → List (String × Option Value)
  | [], k, v => [(k, v)]
  | (k1, v1) :: rest, k, v =>
    if k1 = k then (k1, v) :: rest
    else (k1, v1) :: map_insert rest k v

/-- Pure lookup (no insertion), used only to state theorems: `none` means the
key is absent from the map, `some w` that `w` is stored under it. -/
def map_find : List (String × Option Value) → String → Option (Option Value)
  | [], _ => none
  | (k1, v) :: rest, k => if k1 = k then some v else map_find rest k

/-- The argument-binding loop of `FunctionAST::codegen`:
`for (auto &arg : the_func->args()) g_named_values[arg.getName()] = &arg;`
starting from the cleared map. -/
def bind_args (fn : String) : Nat → List String → List (String × Option Value) →
    List (String × Option Value)
  | _, [], m => m
  | idx, a :: rest, m => bind_args fn (idx + 1) rest (map_insert m a (some (Value.arg fn idx)))

mutual

/-- The virtual `codegen()` dispatch over expression nodes
(`src/ast.cpp`, lines 56-163), threading the global state. -/
def ExprAST.codegen : ExprAST → CodegenState → Option Value × CodegenState
  | ExprAST.NumberExprAST val, s =>
    -- `return llvm::ConstantFP::get(*g_context, llvm::APFloat(val));`
    (some (Value.constFP val), s)
  | ExprAST.VariableExprAST name, s =>
    -- `llvm::Value * v = g_named_values[name]; if (!v) log_error_v(...); return v;`
    match map_access s.g_named_values name with
    | (v, nvs) =>
      let s1 := { s with g_named_values := nvs }
      match v with
      | none => (none, log_error_v "Unknown variable name" s1)
      | some vv => (some vv, s1)
  | ExprAST.BinaryExprAST op lhs rhs, s =>
    -- Both operands are code-generated before the null checks.
    match lhs.codegen s with
    | (l, s1) =>
      match rhs.codegen s1 with
      | (r, s2) =>
        match l, r with
        | some lv, some rv =>
          match op with
          | '+' => (some (Value.fadd lv rv), s2)
          | '-' => (some (Value.fsub lv rv), s2)
          | '*' => (some (Value.fmul lv rv), s2)
          | '<' => (some (Value.uitofp (Value.fcmpULT lv rv)), s2)
          | _ => (none, log_error_v "Invalid binary operator" s2)
        | _, _ => (none, s2)
  | ExprAST.CallExprAST callee args, s =>
    match getFunction s.g_module callee with
    | none => (none, log_error_v "Unknown function referenced" s)
    | some callee_f =>
      if callee_f.args.length ≠ args.length then
        (none, log_error_v "Incorrect number of args passed" s)
      else
        match codegen_args args s with
        | (none, s1) => (none, s1)
        | (some args_v, s1) => (some (Value.call callee args_v), s1)

/-- The argument loop of `CallExprAST::codegen`: code-generate left to right,
aborting on the first failure. -/
def codegen_args : List ExprAST → CodegenState → Option (List Value) × CodegenState
  | [], s => (some [], s)
  | a :: rest, s =>
    match a.codegen s with
    | (none, s1) => (none, s1)
    | (some v, s1) =>
      match codegen_args rest s1 with
      | (none, s2) => (none, s2)
      | (some vs, s2) => (some (v :: vs), s2)

end

/-- `PrototypeAST::codegen` (`src/ast.cpp`, lines 167-197): create the
function with one double parameter per declared name, name the argument
handles in declaration order, and add it to the module. -/
def PrototypeAST.codegen (p : PrototypeAST) (s : CodegenState) : IRFunction × CodegenState :=
  let f : IRFunction := { name := p.name, args := p.args, body := none }
  (f, { s with g_module := s.g_module ++ [f] })

/-- `FunctionAST::codegen` (`src/ast.cpp`, lines 201-259): reuse an existing
declaration with the prototype's name if there is one (otherwise declare via
`PrototypeAST::codegen`), reject redefinition when the resolved function is
non-empty, rebuild `g_named_values` from the resolved function's own
argument-handle names, code-generate the body, and either erase the function
(body failure) or finalize it with the return value.  The source's
`if (!the_func) return nullptr;` after `proto->codegen()` is dead code —
`PrototypeAST::codegen` has no failure path — and therefore has no
counterpart here.  The part after `the_func` has been resolved is split into
`FunctionAST.codegen_body` so both resolution branches can share it. -/
def FunctionAST.codegen_body (the_func : IRFunction) (s1 : CodegenState) (fd : FunctionAST) :
    Option IRFunction × CodegenState :=
  if the_func.body.isSome then
    -- `if (!the_func->empty()) return log_error_v("Function cannot be redefined");`
    (none, log_error_v "Function cannot be redefined" s1)
  else
    -- BasicBlock::Create("entry"), SetInsertPoint, then rebind g_named_values.
    let s2 := { s1 with g_named_values := bind_args the_func.name 0 the_func.args [] }
    match fd.body.codegen s2 with
    | (none, s3) =>
      -- `the_func->eraseFromParent(); return nullptr;`
      (none, { s3 with g_module := eraseFunction s3.g_module the_func.name })
    | (some ret_val, s3) =>
      -- `CreateRet(ret_val); verifyFunction(*the_func); return the_func;`
      (some { the_func with body := some ret_val },
       { s3 with g_module := setFunctionBody s3.g_module the_func.name ret_val })

/-- Entry point of `FunctionAST::codegen`: resolve `the_func` (an existing
module function with the prototype's name, or a fresh declaration) and
continue with `FunctionAST.codegen_body`. -/
def FunctionAST.codegen (fd : FunctionAST) (s : CodegenState) :
    Option IRFunction × CodegenState :=
  match getFunction s.g_module fd.proto.name with
  | some f => FunctionAST.codegen_body f s fd
  | none =>
    match fd.proto.codegen s with
    | (f, s1) => FunctionAST.codegen_body f s1 fd

/-- The initial codegen state: an empty module, no bindings, no diagnostics. -/
def initState : CodegenState :=
  { g_module := [], g_named_values := [], g_errors := [] }

/-- Token stream of an equal-precedence chain continuation: operator,
literal, operator, literal, ... (used to state claim C2). -/
def chain_toks : List (Char × String) → List Tok
  | [] => []
  | (op, lit) :: rest => Tok.sym op :: Tok.tok_number lit :: chain_toks rest

/-- Left-to-right grouping of a chain continuation onto an accumulator
(used to state claim C2). -/
def chain_ast (acc : ExprAST) : List (Char × String) → ExprAST
  | [] => acc
  | (op, lit) :: rest =>
    chain_ast (ExprAST.BinaryExprAST op acc (ExprAST.NumberExprAST lit)) rest

/-! ## Helper lemmas -/

/-- A `std::map` read access on an absent key returns null and default-inserts
a null entry. -/
theorem map_access_absent (m : List (String × Option Value)) (k : String)
    (h : map_find m k = none) : map_access m k = (none, m ++ [(k, none)]) := by
  induction m with
  | nil => rfl
  | cons hd tl ih =>
    obtain ⟨k1, v⟩ := hd
    by_cases hk : k1 = k
    · simp [map_find, hk] at h
    · simp [map_find, hk] at h
      simp [map_access, hk, ih h]

/-- A `std::map` read access on a present key returns the stored value and
leaves the map unchanged. -/
theorem map_access_found (m : List (String × Option Value)) (k : String)
    (w : Option Value) (h : map_find m k = some w) : map_access m k = (w, m) := by
  induction m with
  | nil => simp [map_find] at h
  | cons hd tl ih =>
    obtain ⟨k1, v⟩ := hd
    by_cases hk : k1 = k
    · simp [map_find, hk] at h
      simp [map_access, hk, h]
    · simp [map_find, hk] at h
      simp [map_access, hk, ih h]

/-- Appending a fresh binding makes it visible to later lookups. -/
theorem map_find_append_self (m : List (String × Option Value)) (k : String)
    (v : Option Value) (h : map_find m k = none) :
    map_find (m ++ [(k, v)]) k = some v := by
  induction m with
  | nil => simp [map_find]
  | cons hd tl ih =>
    obtain ⟨k1, v1⟩ := hd
    by_cases hk : k1 = k
    · simp [map_find, hk] at h
    · simp [map_find, hk] at h
      simp [map_find, hk, ih h]

/-- The argument loop of `CallExprAST::codegen` aborts at the first failing
argument: once a prefix has succeeded and the next argument fails, the whole
loop fails in exactly the state the failing argument left behind, and the
remaining arguments are never code-generated. -/
theorem codegen_args_abort (a : ExprAST) (post : List ExprAST) :
    ∀ (pre : List ExprAST) (s s1 s2 : CodegenState) (vs : List Value),
      codegen_args pre s = (some vs, s1) → a.codegen s1 = (none, s2) →
      codegen_args (pre ++ a :: post) s = (none, s2) := by
  intro pre
  induction pre with
  | nil =>
    intro s s1 s2 vs hpre ha
    simp [codegen_args] at hpre
    simp [codegen_args, hpre.2 ▸ ha]
  | cons b pre ih =>
    intro s s1 s2 vs hpre ha
    simp only [codegen_args] at hpre
    rcases hb : b.codegen s with ⟨vb, sb⟩
    rw [hb] at hpre
    cases vb with
    | none => simp at hpre
    | some vb =>
      simp only at hpre
      rcases hrest : codegen_args pre sb with ⟨vrest, srest⟩
      rw [hrest] at hpre
      cases vrest with
      | none => simp at hpre
      | some vrest =>
        simp only [Prod.mk.injEq, Option.some.injEq] at hpre
        simp only [List.cons_append, codegen_args, hb]
        have h2 : codegen_args (pre ++ a :: post) sb = (none, s2) :=
          ih sb s1 s2 vrest (by rw [hrest, hpre.2]) ha
        rw [show pre.append (a :: post) = pre ++ a :: post from rfl, h2]

/-! ## Claims -/

/-- Claim C3 (amended): for every `BinaryOp` node, codegen code-generates
`lhs` and then `rhs` unconditionally — there is no short-circuit, the second
operand is code-generated even when the first has already failed — and if
either sub-codegen failed the enclosing `BinaryOp` codegen returns the
failure result, with the side effects of both sub-codegens kept (no
rollback). -/
theorem claim_C3 (op : Char) (a b : ExprAST) (s : CodegenState)
    (h : (a.codegen s).1 = none ∨ (b.codegen (a.codegen s).2).1 = none) :
    (ExprAST.BinaryExprAST op a b).codegen s = (none, (b.codegen (a.codegen s).2).2) := by
  rcases ha : a.codegen s with ⟨l, s1⟩
  rcases hb : b.codegen s1 with ⟨r, s2⟩
  rw [ha] at h
  simp only at h
  rw [hb] at h
  simp only at h
  simp only [ExprAST.codegen, ha, hb]
  rcases h with h | h
  · subst h
    cases r <;> simp
  · subst h
    cases l <;> simp

/-- Claim C3, refutation of the original wording: the claim asserts that once
one side has failed the other operand is not code-generated
("short-circuiting the other side").  In `BinaryExprAST::codegen` both
operands are code-generated before the null checks: for
`BinaryOp('+', VariableRef "z", VariableRef "w")` in the empty state the
left operand fails (one "Unknown variable name" diagnostic), yet code
generation of the whole node emits two such diagnostics and default-inserts
a binding for `"w"` — the right operand was code-generated after the left
side had already failed. -/
theorem claim_C3_counterexample :
    ((ExprAST.VariableExprAST "z").codegen initState).1 = none
    ∧ ((ExprAST.VariableExprAST "z").codegen initState).2.g_errors
        = ["Unknown variable name"]
    ∧ ((ExprAST.BinaryExprAST '+' (ExprAST.VariableExprAST "z")
          (ExprAST.VariableExprAST "w")).codegen initState).2.g_errors
        = ["Unknown variable name", "Unknown variable name"]
    ∧ map_find ((ExprAST.BinaryExprAST '+' (ExprAST.VariableExprAST "z")
          (ExprAST.VariableExprAST "w")).codegen initState).2.g_named_values "w"
        = some none := ⟨rfl, rfl, rfl, rfl⟩

/-- Witness for `claim_C3`: at `BinaryOp('+', VariableRef "z",
VariableRef "w")` in the empty state the left operand fails, and the whole
node fails in the state both operand codegens produced. -/
theorem claim_C3_witness :
    ((ExprAST.VariableExprAST "z").codegen initState).1 = none
    ∧ (ExprAST.BinaryExprAST '+' (ExprAST.VariableExprAST "z")
          (ExprAST.VariableExprAST "w")).codegen initState
        = (none, ((ExprAST.VariableExprAST "w").codegen
            ((ExprAST.VariableExprAST "z").codegen initState).2).2) :=
  ⟨rfl, claim_C3 '+' (ExprAST.VariableExprAST "z") (ExprAST.VariableExprAST "w")
    initState (Or.inl rfl)⟩

/-- Claim C4: whenever codegen of a `FunctionDef` resolves to a backend
function that already has a body, it fails with the fatal "Function cannot
be redefined" error and leaves the module — in particular the previously
generated function — untouched.  Concretely, generating `def foo(a) a` and
then `def foo(a) a+1` fails on the second with the redefinition error while
the first function's body (`ret arg0`) is unchanged. -/
theorem claim_C4 (fd : FunctionAST) (s : CodegenState) (f : IRFunction)
    (hfind : getFunction s.g_module fd.proto.name = some f)
    (hbody : f.body.isSome = true) :
    fd.codegen s
      = (none, { s with g_errors := s.g_errors ++ ["Function cannot be redefined"] })
    ∧ (fd.codegen s).2.g_module = s.g_module
    ∧ ((FunctionAST.mk ⟨"foo", ["a"]⟩ (ExprAST.VariableExprAST "a")).codegen
        initState).1.isSome = true
    ∧ ((FunctionAST.mk ⟨"foo", ["a"]⟩
          (ExprAST.BinaryExprAST '+' (ExprAST.VariableExprAST "a")
            (ExprAST.NumberExprAST "1"))).codegen
        ((FunctionAST.mk ⟨"foo", ["a"]⟩ (ExprAST.VariableExprAST "a")).codegen
          initState).2).1 = none
    ∧ ((FunctionAST.mk ⟨"foo", ["a"]⟩
          (ExprAST.BinaryExprAST '+' (ExprAST.VariableExprAST "a")
            (ExprAST.NumberExprAST "1"))).codegen
        ((FunctionAST.mk ⟨"foo", ["a"]⟩ (ExprAST.VariableExprAST "a")).codegen
          initState).2).2.g_errors = ["Function cannot be redefined"]
    ∧ getFunction ((FunctionAST.mk ⟨"foo", ["a"]⟩
          (ExprAST.BinaryExprAST '+' (ExprAST.VariableExprAST "a")
            (ExprAST.NumberExprAST "1"))).codegen
        ((FunctionAST.mk ⟨"foo", ["a"]⟩ (ExprAST.VariableExprAST "a")).codegen
          initState).2).2.g_module "foo"
        = some ⟨"foo", ["a"], some (Value.arg "foo" 0)⟩ := by
  have hmain : fd.codegen s
      = (none, { s with g_errors := s.g_errors ++ ["Function cannot be redefined"] }) := by
    simp [FunctionAST.codegen, hfind, FunctionAST.codegen_body, hbody, log_error_v]
  exact ⟨hmain, by rw [hmain], rfl, rfl, rfl, rfl⟩

/-- Witness for `claim_C4`: the module obtained by generating `def foo(a) a`
contains a non-empty `foo`, so generating `def foo(a) a+1` on top of it
fails with the redefinition error and the module is unchanged. -/
theorem claim_C4_witness :
    getFunction ((FunctionAST.mk ⟨"foo", ["a"]⟩ (ExprAST.VariableExprAST "a")).codegen
        initState).2.g_module "foo" = some ⟨"foo", ["a"], some (Value.arg "foo" 0)⟩
    ∧ (FunctionAST.mk ⟨"foo", ["a"]⟩
          (ExprAST.BinaryExprAST '+' (ExprAST.VariableExprAST "a")
            (ExprAST.NumberExprAST "1"))).codegen
        ((FunctionAST.mk ⟨"foo", ["a"]⟩ (ExprAST.VariableExprAST "a")).codegen
          initState).2
      = (none, { ((FunctionAST.mk ⟨"foo", ["a"]⟩ (ExprAST.VariableExprAST "a")).codegen
            initState).2 with
          g_errors := ((FunctionAST.mk ⟨"foo", ["a"]⟩ (ExprAST.VariableExprAST "a")).codegen
            initState).2.g_errors ++ ["Function cannot be redefined"] }) :=
  ⟨rfl,
    (claim_C4 (FunctionAST.mk ⟨"foo", ["a"]⟩
        (ExprAST.BinaryExprAST '+' (ExprAST.VariableExprAST "a")
          (ExprAST.NumberExprAST "1")))
      ((FunctionAST.mk ⟨"foo", ["a"]⟩ (ExprAST.VariableExprAST "a")).codegen initState).2
      ⟨"foo", ["a"], some (Value.arg "foo" 0)⟩ rfl rfl).1⟩

/-- Claim C7: code-generating `VariableRef(name)` when the current
parameter-binding table does not contain `name` fails — the failure sentinel
is returned, no backend value is produced — with the unknown-variable
diagnostic; in particular `VariableRef "z"` under the bindings of a function
with parameters `(a, b)` fails that way. -/
theorem claim_C7 (name : String) (s : CodegenState)
    (habs : map_find s.g_named_values name = none) :
    (ExprAST.VariableExprAST name).codegen s
      = (none, { s with g_named_values := s.g_named_values ++ [(name, none)],
                        g_errors := s.g_errors ++ ["Unknown variable name"] })
    ∧ ((ExprAST.VariableExprAST "z").codegen
        { initState with g_named_values := bind_args "f" 0 ["a", "b"] [] }).1 = none
    ∧ ((ExprAST.VariableExprAST "z").codegen
        { initState with g_named_values := bind_args "f" 0 ["a", "b"] [] }).2.g_errors
      = ["Unknown variable name"] := by
  refine ⟨?_, rfl, rfl⟩
  simp [ExprAST.codegen, map_access_absent _ _ habs, log_error_v]

/-- Witness for `claim_C7`: `VariableRef "z"` inside a function with
parameters `(a, b)` fails with the unknown-variable error and no backend
value. -/
theorem claim_C7_witness :
    (ExprAST.VariableExprAST "z").codegen
        { initState with g_named_values := bind_args "f" 0 ["a", "b"] [] }
      = (none, { { initState with g_named_values := bind_args "f" 0 ["a", "b"] [] } with
          g_named_values := bind_args "f" 0 ["a", "b"] [] ++ [("z", none)],
          g_errors := ["Unknown variable name"] }) :=
  (claim_C7 "z" { initState with g_named_values := bind_args "f" 0 ["a", "b"] [] } rfl).1

/-- Claim C9: when `FunctionAST::codegen` finds an existing backend function
with the prototype's name, the definition's own parameter list is ignored
entirely — codegen does not depend on it at all, so no arity or name check
against the existing declaration ever happens — and the parameter-binding
table is rebuilt from the existing declaration's argument-handle names.
Concretely, after `extern foo(x y)`, generating `def foo(a) a` fails with the
unknown-variable error (its body's `a` is not among the bindings `x, y`),
while generating `def foo(a) x` succeeds. -/
theorem claim_C9 (s : CodegenState) (f : IRFunction) (nm : String)
    (args1 args2 : List String) (body : ExprAST)
    (hfind : getFunction s.g_module nm = some f) :
    (FunctionAST.mk ⟨nm, args1⟩ body).codegen s
      = (FunctionAST.mk ⟨nm, args2⟩ body).codegen s
    ∧ (f.body.isSome = false →
        (FunctionAST.mk ⟨nm, args1⟩ body).codegen s
          = (match body.codegen { s with g_named_values := bind_args f.name 0 f.args [] } with
             | (none, s3) => (none, { s3 with g_module := eraseFunction s3.g_module f.name })
             | (some rv, s3) => (some { f with body := some rv },
                 { s3 with g_module := setFunctionBody s3.g_module f.name rv })))
    ∧ ((FunctionAST.mk ⟨"foo", ["a"]⟩ (ExprAST.VariableExprAST "a")).codegen
        (PrototypeAST.codegen ⟨"foo", ["x", "y"]⟩ initState).2).1 = none
    ∧ ((FunctionAST.mk ⟨"foo", ["a"]⟩ (ExprAST.VariableExprAST "a")).codegen
        (PrototypeAST.codegen ⟨"foo", ["x", "y"]⟩ initState).2).2.g_errors
      = ["Unknown variable name"]
    ∧ ((FunctionAST.mk ⟨"foo", ["a"]⟩ (ExprAST.VariableExprAST "x")).codegen
        (PrototypeAST.codegen ⟨"foo", ["x", "y"]⟩ initState).2).1
      = some ⟨"foo", ["x", "y"], some (Value.arg "foo" 0)⟩ := by
  refine ⟨?_, ?_, rfl, rfl, rfl⟩
  · simp only [FunctionAST.codegen, hfind]
    rfl
  · intro hbody
    simp [FunctionAST.codegen, hfind, FunctionAST.codegen_body, hbody]

/-- Witness for `claim_C9`: with `foo` declared by a prior `extern foo(x y)`,
code generation of `def foo(a) a` and of `def foo(zz) a` coincide — the
definition's own parameter list plays no role. -/
theorem claim_C9_witness :
    (FunctionAST.mk ⟨"foo", ["a"]⟩ (ExprAST.VariableExprAST "a")).codegen
        (PrototypeAST.codegen ⟨"foo", ["x", "y"]⟩ initState).2
      = (FunctionAST.mk ⟨"foo", ["zz"]⟩ (ExprAST.VariableExprAST "a")).codegen
        (PrototypeAST.codegen ⟨"foo", ["x", "y"]⟩ initState).2 :=
  (claim_C9 (PrototypeAST.codegen ⟨"foo", ["x", "y"]⟩ initState).2
    ⟨"foo", ["x", "y"], none⟩ "foo" ["a"] ["zz"]
    (ExprAST.VariableExprAST "a") rfl).1

/-- Claim C10: a failed variable lookup mutates the parameter-binding table:
for a name absent from the table, codegen of `VariableRef(name)` both fails
and default-inserts a null-valued entry for the name, and that inserted
entry does not change the outcome of a subsequent lookup of the same name —
it still fails. -/
theorem claim_C10 (name : String) (s : CodegenState)
    (habs : map_find s.g_named_values name = none) :
    ((ExprAST.VariableExprAST name).codegen s).1 = none
    ∧ ((ExprAST.VariableExprAST name).codegen s).2.g_named_values
        = s.g_named_values ++ [(name, none)]
    ∧ map_find ((ExprAST.VariableExprAST name).codegen s).2.g_named_values name
        = some none
    ∧ ((ExprAST.VariableExprAST name).codegen
        ((ExprAST.VariableExprAST name).codegen s).2).1 = none := by
  have hstep : (ExprAST.VariableExprAST name).codegen s
      = (none, { s with g_named_values := s.g_named_values ++ [(name, none)],
                        g_errors := s.g_errors ++ ["Unknown variable name"] }) := by
    simp [ExprAST.codegen, map_access_absent _ _ habs, log_error_v]
  refine ⟨by rw [hstep], by rw [hstep], ?_, ?_⟩
  · rw [hstep]
    exact map_find_append_self _ _ _ habs
  · rw [hstep]
    simp [ExprAST.codegen,
      map_access_found _ _ _ (map_find_append_self s.g_named_values name none habs)]

/-- Witness for `claim_C10`: looking up `"z"` in the empty binding table
fails, inserts the null entry `("z", none)`, and a second lookup of `"z"`
still fails. -/
theorem claim_C10_witness :
    ((ExprAST.VariableExprAST "z").codegen initState).1 = none
    ∧ ((ExprAST.VariableExprAST "z").codegen initState).2.g_named_values
        = [("z", none)]
    ∧ map_find ((ExprAST.VariableExprAST "z").codegen initState).2.g_named_values "z"
        = some none
    ∧ ((ExprAST.VariableExprAST "z").codegen
        ((ExprAST.VariableExprAST "z").codegen initState).2).1 = none :=
  claim_C10 "z" initState rfl

/-- Claim C5: codegen of a `Call` node fails fatally when the callee is
absent from the module's function table, fails fatally with no backend value
when the supplied argument count differs from the callee's declared
parameter count, and otherwise code-generates the arguments left to right
with the first failing argument aborting the whole call (the later arguments
are never code-generated).  Concretely, after `def foo(a b) a+b`, calling
`foo(1)` fails with the arity diagnostic and produces no backend value. -/
theorem claim_C5 (callee : String) (s : CodegenState) (f : IRFunction)
    (args pre post : List ExprAST) (a : ExprAST)
    (s1 s2 : CodegenState) (vs : List Value) :
    (getFunction s.g_module callee = none →
      (ExprAST.CallExprAST callee args).codegen s
        = (none, log_error_v "Unknown function referenced" s))
    ∧ (getFunction s.g_module callee = some f → f.args.length ≠ args.length →
        (ExprAST.CallExprAST callee args).codegen s
          = (none, log_error_v "Incorrect number of args passed" s))
    ∧ (getFunction s.g_module callee = some f →
        f.args.length = (pre ++ a :: post).length →
        codegen_args pre s = (some vs, s1) → a.codegen s1 = (none, s2) →
        (ExprAST.CallExprAST callee (pre ++ a :: post)).codegen s = (none, s2))
    ∧ ((ExprAST.CallExprAST "foo" [ExprAST.NumberExprAST "1"]).codegen
        ((FunctionAST.mk ⟨"foo", ["a", "b"]⟩
          (ExprAST.BinaryExprAST '+' (ExprAST.VariableExprAST "a")
            (ExprAST.VariableExprAST "b"))).codegen initState).2).1 = none
    ∧ ((ExprAST.CallExprAST "foo" [ExprAST.NumberExprAST "1"]).codegen
        ((FunctionAST.mk ⟨"foo", ["a", "b"]⟩
          (ExprAST.BinaryExprAST '+' (ExprAST.VariableExprAST "a")
            (ExprAST.VariableExprAST "b"))).codegen initState).2).2.g_errors
      = ["Incorrect number of args passed"] := by
  refine ⟨?_, ?_, ?_, rfl, rfl⟩
  · intro hmiss
    simp [ExprAST.codegen, hmiss]
  · intro hfind hne
    simp [ExprAST.codegen, hfind, hne]
  · intro hfind hlen hpre ha
    have habort := codegen_args_abort a post pre s s1 s2 vs hpre ha
    simp [ExprAST.codegen, hfind, hlen, habort]

/-- Witness for `claim_C5`: calling the unknown `bar()` in the empty module
fails with the unknown-function diagnostic; after `def foo(a b) a+b`,
`foo(1)` fails with the arity diagnostic; and in a call `qux(z, 1)` whose
first argument fails to code-generate, the whole call fails in the state the
failing argument left (the second argument is never code-generated). -/
theorem claim_C5_witness :
    (ExprAST.CallExprAST "bar" []).codegen initState
      = (none, log_error_v "Unknown function referenced" initState)
    ∧ (ExprAST.CallExprAST "foo" [ExprAST.NumberExprAST "1"]).codegen
        ((FunctionAST.mk ⟨"foo", ["a", "b"]⟩
          (ExprAST.BinaryExprAST '+' (ExprAST.VariableExprAST "a")
            (ExprAST.VariableExprAST "b"))).codegen initState).2
      = (none, log_error_v "Incorrect number of args passed"
          ((FunctionAST.mk ⟨"foo", ["a", "b"]⟩
            (ExprAST.BinaryExprAST '+' (ExprAST.VariableExprAST "a")
              (ExprAST.VariableExprAST "b"))).codegen initState).2)
    ∧ (ExprAST.CallExprAST "qux"
          [ExprAST.VariableExprAST "z", ExprAST.NumberExprAST "1"]).codegen
        (PrototypeAST.codegen ⟨"qux", ["p", "q"]⟩ initState).2
      = (none, ((ExprAST.VariableExprAST "z").codegen
          (PrototypeAST.codegen ⟨"qux", ["p", "q"]⟩ initState).2).2) :=
  ⟨(claim_C5 "bar" initState ⟨"bar", [], none⟩ [] [] [] (ExprAST.NumberExprAST "0")
      initState initState []).1 rfl,
   (claim_C5 "foo"
      ((FunctionAST.mk ⟨"foo", ["a", "b"]⟩
        (ExprAST.BinaryExprAST '+' (ExprAST.VariableExprAST "a")
          (ExprAST.VariableExprAST "b"))).codegen initState).2
      ⟨"foo", ["a", "b"], some (Value.fadd (Value.arg "foo" 0) (Value.arg "foo" 1))⟩
      [ExprAST.NumberExprAST "1"] [] [] (ExprAST.NumberExprAST "0")
      initState initState []).2.1 rfl (by decide),
   (claim_C5 "qux" (PrototypeAST.codegen ⟨"qux", ["p", "q"]⟩ initState).2
      ⟨"qux", ["p", "q"], none⟩ [] [] [ExprAST.NumberExprAST "1"]
      (ExprAST.VariableExprAST "z")
      (PrototypeAST.codegen ⟨"qux", ["p", "q"]⟩ initState).2
      ((ExprAST.VariableExprAST "z").codegen
        (PrototypeAST.codegen ⟨"qux", ["p", "q"]⟩ initState).2).2 []).2.2.1
     rfl (by decide) rfl rfl⟩

/-- Claim C6: `parse_paren_expr` returns the inner expression unchanged, so
parenthesization never alters AST shape.  Concretely, `def foo(a) (a)`
parses to a prototype with the single parameter `a` and a body structurally
equal to `VariableRef "a"`, and `(1+2)*3` parses as
`BinaryOp(*, BinaryOp(+, 1, 2), 3)`. -/
theorem claim_C6 (fuel : Nat) (ts ts2 : List Tok) (v : ExprAST)
    (hinner : parse_expression fuel (adv ts) = (some v, ts2))
    (hclose : cur ts2 = Tok.sym ')') :
    parse_paren_expr (fuel + 1) ts = (some v, adv ts2)
    ∧ (parse_definition 16 (tokenize "def foo(a) (a)")).1
        = some ⟨⟨"foo", ["a"]⟩, ExprAST.VariableExprAST "a"⟩
    ∧ (parse_expression 16 (tokenize "(1+2)*3")).1
        = some (ExprAST.BinaryExprAST '*'
            (ExprAST.BinaryExprAST '+' (ExprAST.NumberExprAST "1")
              (ExprAST.NumberExprAST "2"))
            (ExprAST.NumberExprAST "3")) := by
  refine ⟨?_, rfl, rfl⟩
  simp [parse_paren_expr, hinner, hclose]

/-- Witness for `claim_C6`: parsing the parenthesized variable reference in
the token stream of `(a)` returns exactly the inner `VariableRef "a"`. -/
theorem claim_C6_witness :
    parse_paren_expr 15 [Tok.sym '(', Tok.tok_identifier "a", Tok.sym ')', Tok.tok_eof]
      = (some (ExprAST.VariableExprAST "a"), [Tok.tok_eof])
    ∧ (parse_definition 16 (tokenize "def foo(a) (a)")).1
        = some ⟨⟨"foo", ["a"]⟩, ExprAST.VariableExprAST "a"⟩ :=
  ⟨(claim_C6 14 [Tok.sym '(', Tok.tok_identifier "a", Tok.sym ')', Tok.tok_eof]
      [Tok.sym ')', Tok.tok_eof] (ExprAST.VariableExprAST "a") rfl rfl).1,
   (claim_C6 14 [Tok.sym '(', Tok.tok_identifier "a", Tok.sym ')', Tok.tok_eof]
      [Tok.sym ')', Tok.tok_eof] (ExprAST.VariableExprAST "a") rfl rfl).2.1⟩

/-- At EOF, the whitespace-skipping loop returns immediately. -/
theorem skip_ws_eof (inp : List Char) : skip_ws CChar.eof inp = (CChar.eof, inp) := by
  cases inp <;> rfl

/-- On a non-whitespace character, the whitespace-skipping loop returns
immediately. -/
theorem skip_ws_nonspace (c : Char) (inp : List Char) (h : isspace c = false) :
    skip_ws (CChar.ch c) inp = (CChar.ch c, inp) := by
  cases inp <;> simp [skip_ws, h]

/-- Claim C8: the tokenizer is total and never fails — `gettok` is a total
function into the token type; at end of input it returns the distinguished
`tok_eof`, and any single character that does not start an identifier, a
number or a comment (and is not whitespace) is returned verbatim as a `sym`
token carrying the character (whose ordinal the C function returns as the
token's int value).  In particular tokenizing `"$"` yields the symbol token
for `'$'` — whose ordinal is 36 — and then the end token, not a failure. -/
theorem claim_C8 (c : Char) (input inp : List Char)
    (hsp : isspace c = false) (hal : isalpha c = false)
    (hnum : (isdigit c || c = '.') = false) (hcom : ¬ c = '#') :
    gettok CChar.eof inp = (Tok.tok_eof, CChar.eof, inp)
    ∧ gettok (CChar.ch c) input = (Tok.sym c, (getchar input).1, (getchar input).2)
    ∧ tokenize "$" = [Tok.sym '$', Tok.tok_eof]
    ∧ '$'.toNat = 36 := by
  refine ⟨?_, ?_, by decide, by decide⟩
  · simp [gettok, gettok_fuel, skip_ws_eof]
  · rcases hg : getchar input with ⟨lc2, rest2⟩
    simp [gettok, gettok_fuel, skip_ws_nonspace c input hsp, hal, hnum, hcom, hg]

/-- Witness for `claim_C8`: the character `'$'` is classified as nothing but
itself — tokenizing it from any lexer state yields the verbatim symbol
token. -/
theorem claim_C8_witness :
    gettok CChar.eof ['a'] = (Tok.tok_eof, CChar.eof, ['a'])
    ∧ gettok (CChar.ch '$') ['a'] = (Tok.sym '$', (getchar ['a']).1, (getchar ['a']).2)
    ∧ tokenize "$" = [Tok.sym '$', Tok.tok_eof]
    ∧ '$'.toNat = 36 :=
  claim_C8 '$' ['a'] ['a'] (by decide) (by decide) (by decide) (by decide)

/-- The lookahead of a non-empty stream is its head. -/
theorem cur_cons (t : Tok) (ts : List Tok) : cur (t :: ts) = t := rfl

/-- Advancing a non-empty stream drops its head. -/
theorem adv_cons (t : Tok) (ts : List Tok) : adv (t :: ts) = ts := rfl

/-- Claim C1: precedence-climbing parsing is correct with respect to the
fixed table `'<'→10, '+'→20, '-'→30, '*'→40`: when `parse_binop_rhs`, after
parsing `rhs`, sees that the following token has strictly greater precedence
than the current operator, it recursively resolves `rhs` at
`min_prec = tok_prec + 1` and only then combines (builds the `BinaryOp` and
continues the loop with it); in particular the token stream of `"1+2*3"`
parses as
`BinaryOp(+, NumberLiteral 1, BinaryOp(*, NumberLiteral 2, NumberLiteral 3))`. -/
theorem claim_C1 (fuel : Nat) (expr_prec tok_prec : Int) (lhs rhs : ExprAST)
    (op : Char) (ts ts2 : List Tok)
    (hop : cur ts = Tok.sym op)
    (hprec : get_tok_precedence (cur ts) = tok_prec)
    (hge : ¬ tok_prec < expr_prec)
    (hrhs : parse_primary fuel (adv ts) = (some rhs, ts2))
    (hnext : tok_prec < get_tok_precedence (cur ts2)) :
    (parse_binop_rhs (fuel + 1) expr_prec lhs ts
      = match parse_binop_rhs fuel (tok_prec + 1) rhs ts2 with
        | (none, ts3) => (none, ts3)
        | (some rhs2, ts3) =>
          parse_binop_rhs fuel expr_prec (ExprAST.BinaryExprAST op lhs rhs2) ts3)
    ∧ (parse_expression 16 (tokenize "1+2*3")).1
        = some (ExprAST.BinaryExprAST '+' (ExprAST.NumberExprAST "1")
            (ExprAST.BinaryExprAST '*' (ExprAST.NumberExprAST "2")
              (ExprAST.NumberExprAST "3")))
    ∧ binop_precedence '<' = 10 ∧ binop_precedence '+' = 20
    ∧ binop_precedence '-' = 30 ∧ binop_precedence '*' = 40 := by
  refine ⟨?_, rfl, by decide, by decide, by decide, by decide⟩
  conv_lhs => rw [parse_binop_rhs]
  rw [hprec, hop, if_neg hge]
  simp only [hrhs]
  rw [if_pos hnext]

/-- Witness for `claim_C1`: mid-parse of the token stream of `"1+2*3"`, with
`lhs = 1` and the current operator `+` (precedence 20), the token after the
parsed `rhs = 2` is `*` with strictly greater precedence 40, so
`parse_binop_rhs` resolves `rhs` recursively at `min_prec = 21` before
combining. -/
theorem claim_C1_witness :
    ¬ (20 : Int) < 0
    ∧ ((parse_binop_rhs 9 0 (ExprAST.NumberExprAST "1")
          [Tok.sym '+', Tok.tok_number "2", Tok.sym '*', Tok.tok_number "3", Tok.tok_eof]
        = match parse_binop_rhs 8 (20 + 1) (ExprAST.NumberExprAST "2")
              [Tok.sym '*', Tok.tok_number "3", Tok.tok_eof] with
          | (none, ts3) => (none, ts3)
          | (some rhs2, ts3) =>
            parse_binop_rhs 8 0 (ExprAST.BinaryExprAST '+' (ExprAST.NumberExprAST "1") rhs2) ts3)
      ∧ (parse_expression 16 (tokenize "1+2*3")).1
          = some (ExprAST.BinaryExprAST '+' (ExprAST.NumberExprAST "1")
              (ExprAST.BinaryExprAST '*' (ExprAST.NumberExprAST "2")
                (ExprAST.NumberExprAST "3")))
      ∧ binop_precedence '<' = 10 ∧ binop_precedence '+' = 20
      ∧ binop_precedence '-' = 30 ∧ binop_precedence '*' = 40) :=
  ⟨by decide,
   claim_C1 8 0 20 (ExprAST.NumberExprAST "1") (ExprAST.NumberExprAST "2") '+'
     [Tok.sym '+', Tok.tok_number "2", Tok.sym '*', Tok.tok_number "3", Tok.tok_eof]
     [Tok.sym '*', Tok.tok_number "3", Tok.tok_eof]
     rfl rfl (by decide) rfl (by decide)⟩

/-- `parse_primary` at a number token builds the `NumberExprAST` and
consumes the token. -/
theorem parse_primary_number (fuel : Nat) (hf : 0 < fuel) (v : String) (ts : List Tok) :
    parse_primary fuel (Tok.tok_number v :: ts) = (some (ExprAST.NumberExprAST v), ts) := by
  match fuel, hf with
  | fuel + 1, _ => simp [parse_primary, cur, parse_number_expr]

/-- The `parse_binop_rhs` loop over a chain of operators of one common
precedence `p` folds the chain left to right: the recursive climb never
triggers because the following operator's precedence is never strictly
greater than `p`. -/
theorem parse_binop_rhs_chain (p : Int) (hp : 0 < p) (ts0 : List Tok)
    (hts0 : get_tok_precedence (cur ts0) < 0) :
    ∀ (ps : List (Char × String)) (fuel : Nat) (acc : ExprAST),
      (∀ x ∈ ps, get_tok_precedence (Tok.sym x.1) = p) →
      ps.length < fuel →
      parse_binop_rhs fuel 0 acc (chain_toks ps ++ ts0) = (some (chain_ast acc ps), ts0) := by
  intro ps
  induction ps with
  | nil =>
    intro fuel acc _ hf
    match fuel, hf with
    | fuel + 1, _ =>
      simp only [chain_toks, List.nil_append, chain_ast]
      rw [parse_binop_rhs]
      rw [if_pos (by omega : get_tok_precedence (cur ts0) < (0 : Int))]
  | cons hd tl ih =>
    obtain ⟨op, lit⟩ := hd
    intro fuel acc hall hf
    match fuel, hf with
    | fuel + 1, hf2 =>
      have hop : get_tok_precedence (Tok.sym op) = p := hall (op, lit) (by simp)
      have htl : ∀ x ∈ tl, get_tok_precedence (Tok.sym x.1) = p := by
        intro x hx
        exact hall x (by simp [hx])
      have hfl : tl.length < fuel := by
        simp only [List.length_cons] at hf2
        omega
      have hnp : ¬ p < get_tok_precedence (cur (chain_toks tl ++ ts0)) := by
        cases tl with
        | nil => simp only [chain_toks, List.nil_append]; omega
        | cons hd2 tl2 =>
          obtain ⟨op2, lit2⟩ := hd2
          have h2 : get_tok_precedence (Tok.sym op2) = p := htl (op2, lit2) (by simp)
          simp only [chain_toks, List.cons_append, cur_cons]
          omega
      simp only [chain_toks, List.cons_append, chain_ast]
      rw [parse_binop_rhs]
      simp only [cur_cons, adv_cons, hop]
      rw [if_neg (by omega : ¬ p < (0 : Int))]
      rw [parse_primary_number fuel (by omega) lit (chain_toks tl ++ ts0)]
      simp only
      rw [if_neg hnp]
      exact ih fuel (ExprAST.BinaryExprAST op acc (ExprAST.NumberExprAST lit)) htl hfl

/-- Claim C2: every chain of binary operators of equal precedence groups
left to right (the recursive climb in `parse_binop_rhs` only triggers on a
strictly greater following precedence, which an equal-precedence chain never
provides); in particular the token stream of `"1-2-3"` parses as
`BinaryOp(-, BinaryOp(-, NumberLiteral 1, NumberLiteral 2), NumberLiteral 3)`. -/
theorem claim_C2 (p : Int) (ps : List (Char × String)) (first : String)
    (ts0 : List Tok) (fuel : Nat)
    (hp : 0 < p)
    (hall : ∀ x ∈ ps, get_tok_precedence (Tok.sym x.1) = p)
    (hts0 : get_tok_precedence (cur ts0) < 0)
    (hfuel : ps.length + 2 ≤ fuel) :
    parse_expression fuel (Tok.tok_number first :: (chain_toks ps ++ ts0))
      = (some (chain_ast (ExprAST.NumberExprAST first) ps), ts0)
    ∧ (parse_expression 16 (tokenize "1-2-3")).1
        = some (ExprAST.BinaryExprAST '-'
            (ExprAST.BinaryExprAST '-' (ExprAST.NumberExprAST "1")
              (ExprAST.NumberExprAST "2"))
            (ExprAST.NumberExprAST "3")) := by
  refine ⟨?_, rfl⟩
  match fuel, hfuel with
  | fuel + 1, _ =>
    rw [parse_expression]
    rw [parse_primary_number fuel (by omega) first (chain_toks ps ++ ts0)]
    simp only
    exact parse_binop_rhs_chain p hp ts0 hts0 ps fuel (ExprAST.NumberExprAST first)
      hall (by omega)

/-- Witness for `claim_C2`: the equal-precedence chain `1-2-3` (both
operators `-`, precedence 30) groups left to right. -/
theorem claim_C2_witness :
    parse_expression 16
        (Tok.tok_number "1" :: (chain_toks [('-', "2"), ('-', "3")] ++ [Tok.tok_eof]))
      = (some (chain_ast (ExprAST.NumberExprAST "1") [('-', "2"), ('-', "3")]),
         [Tok.tok_eof])
    ∧ (parse_expression 16 (tokenize "1-2-3")).1
        = some (ExprAST.BinaryExprAST '-'
            (ExprAST.BinaryExprAST '-' (ExprAST.NumberExprAST "1")
              (ExprAST.NumberExprAST "2"))
            (ExprAST.NumberExprAST "3")) :=
  claim_C2 30 [('-', "2"), ('-', "3")] "1" [Tok.tok_eof] 16 (by decide)
    (by decide) (by decide) (by decide)

end Kal
